import Mathlib

/-!
# Verification of the fmu-ensemble core (virtualensemble.py, observations.py)

Shallow embedding of the two source modules of the repository:

* `src/fmu/ensemble/virtualensemble.py` — the `VirtualEnsemble` class: a keyed
  store of dataframes (`data : dict`), shorthand key resolution
  (`shortcut2path`, `get_df`), projection to a single realization
  (`get_realization`), row removal (`remove_realizations`), statistical
  aggregation (`agg`), and the summary read paths (`get_smry`,
  `get_smry_stats`).
* `src/fmu/ensemble/observations.py` — the `Observations` class: construction
  and validation of an observation set (`__init__`, `_clean_observations`),
  mismatch computation against a realization (`_realization_mismatch`) and
  dispatch over source types (`mismatch`).

Modelling conventions:

* A pandas `DataFrame` is a column-name list plus a list of rows; every cell is
  a rational number (the source stores numeric data; dates are modelled as
  rationals, which only need ordering and equality here).  The per-realization
  integer column `REAL` is an ordinary rational-valued column.
* Python dictionaries whose keys are strings are modelled as association lists
  with unique keys (`List (String × _)`).  Python-2 `dict.keys()` returns a
  list snapshot, so iterating and popping as `_clean_observations` does is
  well-defined; iteration order of a Python dict is arbitrary, the association
  list fixes insertion order — no claim below depends on dict order.
* Exceptions are modelled with `Except PyError`; the source is Python 2
  (it uses `cmp` and treats `map`/`filter` results as lists).
* The only irrational values the code produces are square roots (`std`
  aggregation, the `L2` of an `smryh` mismatch).  To keep every definition
  executable these are carried symbolically by `PyFloat` (`rat q` or
  `sqrt q`), whose exact real value is `PyFloat.toReal`.
-/

/-- Python exception values distinguished by the embedded code. -/
inductive PyError where
  | valueError (msg : String)
  | keyError (key : String)
  | nameError (nm : String)
  | attributeError (attr : String)
  deriving DecidableEq, Repr

/-- A pandas dataframe with rational cells: a list of column names and a list
of rows; each row is positionally aligned with `cols`. -/
structure DataFrame where
  cols : List String
  rows : List (List ℚ)
  deriving DecidableEq, Repr

/-- An exact, executable representation of the (real-valued) floats the code
produces: either a rational or the square root of a rational (`math.sqrt`,
pandas `std`).  `PyFloat.toReal` is the denoted real number. -/
inductive PyFloat where
  | rat (q : ℚ)
  | sqrt (q : ℚ)
  deriving DecidableEq, Repr

/-- The real number denoted by a `PyFloat`.  This is pure denotation (no
program code computes with it), hence the only non-executable definition of
the development. -/
noncomputable def PyFloat.toReal : PyFloat → ℝ
  | .rat q => (q : ℝ)
  | .sqrt q => Real.sqrt (q : ℝ)

/-- A dataframe of aggregated values: cells are `PyFloat` because the `std`
aggregation introduces square roots. -/
structure DataFrameR where
  cols : List String
  rows : List (List PyFloat)
  deriving DecidableEq, Repr

/-- The cell of row `r` (a row of `df`) in column `c`: positional lookup of the
column name, defaulting to `0` (rows are assumed aligned with `df.cols`). -/
def cellOf (df : DataFrame) (r : List ℚ) (c : String) : ℚ :=
  r.getD (df.cols.indexOf c) 0

/-- All values of column `c`, in row order (a pandas column selection). -/
def colVals (df : DataFrame) (c : String) : List ℚ :=
  df.rows.map (fun r => cellOf df r c)

/-- `df.drop(columns=c)`: remove the column named `c` (and the corresponding
cell of every row). -/
def dropCol (df : DataFrame) (c : String) : DataFrame :=
  { cols := df.cols.filter (fun x => x ≠ c),
    rows := df.rows.map (fun r =>
      (((df.cols.zip r).filter (fun p => p.1 ≠ c)).map Prod.snd)) }

/-- `df[cs]` (pandas column selection by a list of labels, duplicates kept):
the selected columns in the requested order. -/
def selectCols (df : DataFrame) (cs : List String) : DataFrame :=
  { cols := cs, rows := df.rows.map (fun r => cs.map (cellOf df r)) }

/-- `os.path.basename`: the suffix of the string after the last `/`. -/
def basename (s : String) : String :=
  ⟨(s.data.reverse.takeWhile (fun c => c ≠ '/')).reverse⟩

/-- Python's `str.split('.')`: the (possibly empty) runs between the dots, as
character lists.  Splitting a dot-free string yields one piece; every dot
starts a new piece. -/
def splitOnDot : List Char → List (List Char)
  | [] => [[]]
  | c :: cs =>
    match splitOnDot cs with
    | [] => [[]]
    | h :: t => if c = '.' then [] :: h :: t else (c :: h) :: t

/-- The source's "strip extension" idiom `''.join(x.split('.')[:-1])`: split on
every dot, drop the last piece, and concatenate the rest **without** any
separator (so `"a.b.csv"` becomes `"ab"`, and a dot-free string becomes `""`).
-/
def noext (s : String) : String :=
  String.mk ((splitOnDot s.data).dropLast.flatten)

/-- `''.join(os.path.basename(x).split('.')[:-1])` from the source. -/
def basenameNoext (s : String) : String :=
  noext (basename s)

/-- The internal datastore of a `VirtualEnsemble`: canonical localpath to
dataframe, keys unique ("At ensemble level, this dictionary has dataframes
only"). -/
abbrev VStore := List (String × DataFrame)

/-- `VirtualEnsemble.get_df`: exact keys first; otherwise try the shorthand
forms in order — basename, full path without extension, basename without
extension — returning the stored table of the unique match of the first form
matched by exactly one stored key; raise `ValueError(localpath)` when no form
has a unique match.  (The source tests `list.count(localpath) == 1` and then
reads a `{shortform: key}` dict; with unique store keys that is exactly "the
filter by that shorthand form is a singleton".) -/
def get_df (store : VStore) (localpath : String) : Except PyError DataFrame :=
  match store.lookup localpath with
  | some df => .ok df
  | none =>
    match store.filter (fun kv => basename kv.1 == localpath) with
    | [kv] => .ok kv.2
    | _ =>
      match store.filter (fun kv => noext kv.1 == localpath) with
      | [kv] => .ok kv.2
      | _ =>
        match store.filter (fun kv => basenameNoext kv.1 == localpath) with
        | [kv] => .ok kv.2
        | _ => .error (.valueError localpath)

/-- `VirtualEnsemble.shortcut2path`: same three-form cascade as `get_df` but
with no exact-match short-circuit, and returning the input unchanged when no
form has a unique match ("Return as is, and let the calling function handle
further errors"). -/
def shortcut2path (store : VStore) (shortpath : String) : String :=
  match store.filter (fun kv => basename kv.1 == shortpath) with
  | [kv] => kv.1
  | _ =>
    match store.filter (fun kv => noext kv.1 == shortpath) with
    | [kv] => kv.1
    | _ =>
      match store.filter (fun kv => basenameNoext kv.1 == shortpath) with
      | [kv] => kv.1
      | _ => shortpath

/-- The data held for one key of a `VirtualRealization`: either a scalar
field-to-value mapping (a one-row table collapsed by `iloc[0].to_dict()`) or a
dataframe.  Modelled from the spec: the `VirtualRealization` container itself
(its `append`/`keys`) lives in `virtualrealization.py`, which is not part of
the embedded sources; per spec §4.1 a single-row result collapses to a scalar
mapping and a multi-row result stays tabular. -/
inductive VRealData where
  | scalarDict (d : List (String × ℚ))
  | frame (df : DataFrame)
  deriving DecidableEq, Repr

/-- The rows of `df` whose `REAL` cell equals `i`
(`data[data['REAL'] == realindex]`). -/
def realRows (df : DataFrame) (i : ℚ) : List (List ℚ) :=
  df.rows.filter (fun r => cellOf df r "REAL" = i)

/-- `VirtualEnsemble.get_realization`: for every stored key, keep the rows with
`REAL == realindex`; skip keys with no such row; collapse a single row to a
field-to-value dict; keep multi-row data as a dataframe re-indexed from zero;
drop the `REAL` column/field in both cases; raise `ValueError` when no key
contributed.  (The container `vreal.append`/`vreal.keys` is modelled as the
resulting association list, see `VRealData`.)  `projectKey` is the loop body
handling one stored key; this comment describes both definitions. -/
def projectKey (realindex : ℚ) (kv : String × DataFrame) :
    Option (String × VRealData) :=
  match realRows kv.2 realindex with
  | [] => none
  | [r] => some (kv.1, .scalarDict
      (((kv.2.cols.zip r).filter (fun p => p.1 ≠ "REAL"))))
  | rs => some (kv.1, .frame (dropCol { cols := kv.2.cols, rows := rs } "REAL"))

/-- See `projectKey` above: the loop body of `get_realization`. -/
def get_realization (store : VStore) (realindex : ℚ) :
    Except PyError (List (String × VRealData)) :=
  if (store.filterMap (projectKey realindex)).isEmpty then
    .error (.valueError "No data for realization")
  else .ok (store.filterMap (projectKey realindex))

/-- Result of `remove_realizations`: the updated store plus the indices that
were warned about as undefined (`logger.warn("Skipping undefined realization
indices ...")`).  The source builds them with Python sets; the embedding keeps
them as a deduplicated list — no claim depends on set order. -/
structure RemoveResult where
  store : VStore
  warnedIndices : List ℚ
  deriving DecidableEq, Repr

/-- `VirtualEnsemble.remove_realizations`: the known indices are the distinct
`REAL` values of the `parameters.txt` table (`self.parameters['REAL'].unique()`
— `self.parameters` is `self.data['parameters.txt']`, a `KeyError` when
absent); only indices in the intersection with the request are deleted — every
stored table keeps exactly its rows whose `REAL` is outside that intersection;
requested indices outside the known set are warned about and cause no change.
-/
def remove_realizations (store : VStore) (realindices : List ℚ) :
    Except PyError RemoveResult :=
  match store.lookup "parameters.txt" with
  | none => .error (.keyError "parameters.txt")
  | some params =>
    let indicesknown := (colVals params "REAL").dedup
    let indicestodelete := realindices.dedup.filter (fun i => i ∈ indicesknown)
    let indicesnotknown := realindices.dedup.filter (fun i => i ∉ indicesknown)
    .ok { store := store.map (fun kv =>
            (kv.1, { cols := kv.2.cols,
                     rows := kv.2.rows.filter
                       (fun r => cellOf kv.2 r "REAL" ∉ indicestodelete) })),
          warnedIndices := indicesnotknown }

/-- Pandas' linear-interpolation quantile of a list of values (the default
`interpolation='linear'` of `Series.quantile`): on the sorted values `s` of
length `n`, the quantile `q` is `s[⌊h⌋] + (h - ⌊h⌋) * (s[⌊h⌋+1] - s[⌊h⌋])`
with `h = q * (n - 1)`.  Pandas yields NaN on empty data; the embedding
returns `0` there (no embedded claim touches an empty group). -/
def pandasQuantile (xs : List ℚ) (q : ℚ) : ℚ :=
  let s := xs.insertionSort (fun a b => a ≤ b)
  if s.length = 0 then 0
  else
    let h : ℚ := q * ((s.length : ℚ) - 1)
    let i : ℕ := (⌊h⌋).toNat
    let lo := s.getD i 0
    let hi := s.getD (i + 1) lo
    lo + (h - (⌊h⌋ : ℚ)) * (hi - lo)

/-- Sum of a list of rationals divided by its length (pandas `mean`). -/
def listMean (xs : List ℚ) : ℚ := xs.sum / (xs.length : ℚ)

/-- Pandas `min` over a column (0 on empty data, where pandas yields NaN). -/
def listMin (xs : List ℚ) : ℚ :=
  match xs with
  | [] => 0
  | x :: r => r.foldl min x

/-- Pandas `max` over a column (0 on empty data, where pandas yields NaN). -/
def listMax (xs : List ℚ) : ℚ :=
  match xs with
  | [] => 0
  | x :: r => r.foldl max x

/-- Pandas sample variance (`ddof=1`): `Σ (x - mean)² / (n - 1)`.  Pandas
yields NaN for fewer than two values; the embedding returns `0` there (no
embedded claim evaluates `var`/`std`). -/
def sampleVar (xs : List ℚ) : ℚ :=
  if xs.length ≤ 1 then 0
  else ((xs.map (fun x => (x - listMean xs) ^ 2)).sum) / ((xs.length : ℚ) - 1)

/-- The per-column aggregation performed by pandas' `DataFrame.agg(mode)` /
groupby-`agg(mode)` for the six names `agg` lets through its validation.  The
result is a `PyFloat` because `std` is a square root. -/
def aggFn (mode : String) (xs : List ℚ) : PyFloat :=
  if mode = "mean" then .rat (listMean xs)
  else if mode = "median" then .rat (pandasQuantile xs (1/2))
  else if mode = "min" then .rat (listMin xs)
  else if mode = "max" then .rat (listMax xs)
  else if mode = "var" then .rat (sampleVar xs)
  else if mode = "std" then .sqrt (sampleVar xs)
  else .rat 0

/-- Effectful `map` over `Except` (what Python's exception propagation does to
a loop building a list): stop at the first error, otherwise collect the
results in order. -/
def exceptMapM {α β ε : Type} (f : α → Except ε β) : List α → Except ε (List β)
  | [] => .ok []
  | a :: l =>
    match f a with
    | .error e => .error e
    | .ok b =>
      match exceptMapM f l with
      | .error e => .error e
      | .ok bs => .ok (b :: bs)

/-- The unanchored prefix match `re.compile(r'p(\d\d)').match(aggregation)`
from `VirtualEnsemble.agg`: succeeds whenever the string *starts* with `p`
followed by two digits (so e.g. `"p100"` and `"p10extra"` match), and yields
the integer value of those two digits (`int(match.group(1))`). -/
def quantilematcher (s : String) : Option ℕ :=
  match s.data with
  | 'p' :: d1 :: d2 :: _ =>
    if d1.isDigit ∧ d2.isDigit then
      some ((d1.toNat - '0'.toNat) * 10 + (d2.toNat - '0'.toNat))
    else none
  | _ => none

/-- `supported_aggs` of `VirtualEnsemble.agg`. -/
def supported_aggs : List String := ["mean", "median", "min", "max", "std", "var"]

/-- The fixed `groupbycolumncandidates` of `VirtualEnsemble.agg`. -/
def groupbycolumncandidates : List String :=
  ["DATE", "FIPNUM", "ZONE", "REGION", "JOBINDEX"]

/-- The group key of a row: its cells in the groupby columns, in groupby-column
order. -/
def groupKeyOf (df : DataFrame) (gcols : List String) (r : List ℚ) : List ℚ :=
  gcols.map (cellOf df r)

/-- Lexicographic order on group keys (pandas `groupby` sorts group keys
ascending by default). -/
def lexLe : List ℚ → List ℚ → Prop
  | [], _ => True
  | _ :: _, [] => False
  | a :: as, b :: bs => a < b ∨ (a = b ∧ lexLe as bs)

instance : DecidableRel lexLe := by
  intro x
  induction x with
  | nil => intro y; exact isTrue trivial
  | cons a as ih =>
    intro y
    cases y with
    | nil => exact isFalse (fun h => h)
    | cons b bs => exact
        (if h1 : a < b then isTrue (Or.inl h1)
         else if h2 : a = b then
           match ih bs with
           | isTrue h => isTrue (Or.inr ⟨h2, h⟩)
           | isFalse h => isFalse (fun hc => hc.elim (fun hlt => h1 hlt)
               (fun hp => h hp.2))
         else isFalse (fun hc => hc.elim (fun hlt => h1 hlt) (fun hp => h2 hp.1)))

/-- The distinct group keys of `df` under `gcols`, in ascending order (pandas
`groupby(...).agg`/`quantile` emits one output row per group, keys sorted). -/
def groupKeys (df : DataFrame) (gcols : List String) : List (List ℚ) :=
  ((df.rows.map (groupKeyOf df gcols)).dedup).insertionSort lexLe

/-- The rows of `df` falling in the group with key `k`. -/
def groupRows (df : DataFrame) (gcols : List String) (k : List ℚ) :
    List (List ℚ) :=
  df.rows.filter (fun r => groupKeyOf df gcols r = k)

/-- The values of column `c` within group `k`, in row order. -/
def groupColVals (df : DataFrame) (gcols : List String) (k : List ℚ)
    (c : String) : List ℚ :=
  (groupRows df gcols k).map (fun r => cellOf df r c)

/-- `df.groupby(gcols).<f>` followed by `reset_index()`: one row per group
(keys ascending), the group-key columns restored first, then every non-key
column aggregated by `f` over the group's values. -/
def groupbyAgg (df : DataFrame) (gcols : List String)
    (f : List ℚ → PyFloat) : DataFrameR :=
  let dcols := df.cols.filter (fun c => c ∉ gcols)
  { cols := gcols ++ dcols,
    rows := (groupKeys df gcols).map (fun k =>
      k.map PyFloat.rat ++ dcols.map (fun c => f (groupColVals df gcols k c))) }

/-- Whole-frame aggregation `df.<f>` (pandas returns a Series indexed by the
columns; modelled as a one-row frame with the same columns). -/
def plainAgg (df : DataFrame) (f : List ℚ → PyFloat) : DataFrameR :=
  { cols := df.cols,
    rows := [df.cols.map (fun c => f (colVals df c))] }

/-- The per-key body of `VirtualEnsemble.agg`: drop `REAL`, group by the
candidate columns present, then either take the `1 - NN/100` quantile (when
the mode prefix-matches `p(\d\d)`) or apply the named pandas aggregation. -/
def aggKey (aggregation : String) (df : DataFrame) : DataFrameR :=
  let data := dropCol df "REAL"
  let groupby := groupbycolumncandidates.filter (fun c => c ∈ data.cols)
  let f : List ℚ → PyFloat :=
    match quantilematcher aggregation with
    | some nn => fun xs => .rat (pandasQuantile xs (1 - (nn : ℚ) / 100))
    | none => aggFn aggregation
  if groupby.isEmpty then plainAgg data f
  else groupbyAgg data groupby f

/-- `VirtualEnsemble.agg`: raise
`ValueError("<mode> is not asupported ensemble aggregation")` (the source
concatenates the two message halves without a space) unless the mode is one of
`supported_aggs` or prefix-matches `p(\d\d)`; determine the keys (all store
keys minus `excludekeys` when `keylist` is empty — the source uses Python
sets, whose order no claim depends on); resolve each through `shortcut2path`,
fetch it with `get_df` and aggregate it with `aggKey`. -/
def agg (store : VStore) (aggregation : String) (keylist : List String)
    (excludekeys : List String) : Except PyError (List (String × DataFrameR)) :=
  if aggregation ∉ supported_aggs ∧ quantilematcher aggregation = none then
    .error (.valueError (aggregation ++ " is not asupported ensemble aggregation"))
  else
    let keys := if keylist.isEmpty then
        (store.map Prod.fst).filter (fun k => k ∉ excludekeys)
      else keylist
    exceptMapM (fun key =>
      let key2 := shortcut2path store key
      (get_df store key2).map (fun df => (key2, aggKey aggregation df))) keys

/-- Strip a leading `!` (class negation) from a character-class body,
reporting whether it was present. -/
def stripNeg : List Char → Bool × List Char
  | '!' :: rest => (true, rest)
  | cs => (false, cs)

/-- Strip a leading `]` from a character-class body: `fnmatch.translate`
treats a `]` in the first content position as a literal member of the class.
-/
def stripBracketLit : List Char → List Char × List Char
  | ']' :: rest => ([']'], rest)
  | cs => ([], cs)

/-- Parse one shell character class `[...]` from the pattern characters that
follow the opening `[`: its raw content, whether it is negated (`[!...]`),
and the rest of the pattern after the closing `]`.  Following
`fnmatch.translate`, the scan for the closing `]` starts after a leading `!`
and after a leading `]`; when no closing `]` exists the `[` is a literal
(signalled by `none`). -/
def parseClass (cs : List Char) : Option (List Char × Bool × List Char) :=
  let n := stripNeg cs
  let b := stripBracketLit n.2
  match b.2.findIdx? (fun c => c = ']') with
  | none => none
  | some i => some (b.1 ++ b.2.take i, n.1, b.2.drop (i + 1))

theorem stripNeg_length_le (cs : List Char) :
    (stripNeg cs).2.length ≤ cs.length := by
  unfold stripNeg
  split <;> simp

theorem stripBracketLit_length_le (cs : List Char) :
    (stripBracketLit cs).2.length ≤ cs.length := by
  unfold stripBracketLit
  split <;> simp

theorem parseClass_rest_le {cs body : List Char} {neg : Bool} {rest : List Char}
    (h : parseClass cs = some (body, neg, rest)) : rest.length ≤ cs.length := by
  simp only [parseClass] at h
  split at h
  · exact absurd h (by simp)
  · simp only [Option.some.injEq, Prod.mk.injEq] at h
    obtain ⟨h1, h2, h3⟩ := h
    rw [← h3]
    calc ((stripBracketLit (stripNeg cs).2).2.drop _).length
        ≤ (stripBracketLit (stripNeg cs).2).2.length := by
          simp [List.length_drop]
      _ ≤ (stripNeg cs).2.length := stripBracketLit_length_le _
      _ ≤ cs.length := stripNeg_length_le _

/-- Whether character `c` is matched by the (non-negated) content of a shell
character class: either literally or through a range `a-b`. -/
def classHas : List Char → Char → Bool
  | a :: '-' :: b :: rest, c =>
    (a ≤ c && c ≤ b) || classHas rest c
  | a :: rest, c => a = c || classHas rest c
  | [], _ => false

/-- Fuel-driven worker for shell-style glob matching (structural recursion on
the fuel so that concrete matches reduce definitionally).  Every recursive
call shrinks `pattern length + string length` by at least one
(`parseClass_rest_le` bounds the class case), so fuel
`pattern length + string length + 1` never runs out; the out-of-fuel answer
`false` is unreachable from `globMatch`. -/
def globMatchF : Nat → List Char → List Char → Bool
  | 0, _, _ => false
  | f + 1, pat, s =>
    match pat, s with
    | [], [] => true
    | [], _ :: _ => false
    | '*' :: ps, s =>
      globMatchF f ps s ||
        (match s with
         | [] => false
         | _ :: s2 => globMatchF f ('*' :: ps) s2)
    | '?' :: ps, _ :: s2 => globMatchF f ps s2
    | '?' :: _, [] => false
    | '[' :: ps, s =>
      (match parseClass ps with
       | some (body, neg, rest) =>
         (match s with
          | c :: s2 => (classHas body c != neg) && globMatchF f rest s2
          | [] => false)
       | none =>
         (match s with
          | c :: s2 => ('[' = c) && globMatchF f ps s2
          | [] => false))
    | p :: ps, c :: s2 => p = c && globMatchF f ps s2
    | _ :: _, [] => false

/-- Shell-style glob matching of a whole string, as `fnmatch.fnmatch` /
`fnmatch.translate` compile it: `*` matches any (possibly empty) run, `?` any
single character, `[...]`/`[!...]` one character against a class, everything
else itself; an unterminated `[` is a literal. -/
def globMatch (pat s : List Char) : Bool :=
  globMatchF (pat.length + s.length + 1) pat s

/-- `fnmatch` on strings. -/
def fnmatchMatch (pat s : String) : Bool := globMatch pat.data s.data

/-- `VirtualEnsemble.get_smry`: map the time index to the internalized key
(`unsmry-monthly`/`unsmry-yearly`/`unsmry-daily`, any other index raising
`ValueError`), fetch it via `get_df`, raise `ValueError("No data found")` on
an empty table, then select `['REAL', 'DATE'] + columns` where `columns`
accumulates, per requested pattern, every column name matching it as a glob —
in pattern order, **without** removing duplicates.  (Pandas raises a
`KeyError` when a selected label is absent, which applies only to `REAL` and
`DATE` here since matched columns come from the table itself.)  The
time-index mapping is split out as `unsmryKey`; this comment describes both
definitions. -/
def unsmryKey (time_index : String) : Except PyError String :=
  if time_index = "monthly" then .ok "unsmry-monthly"
  else if time_index = "yearly" then .ok "unsmry-yearly"
  else if time_index = "daily" then .ok "unsmry-daily"
  else .error (.valueError ("Unsupported time index " ++ time_index))

/-- See `unsmryKey` above: the body of `VirtualEnsemble.get_smry`. -/
def get_smry (store : VStore) (column_keys : List String)
    (time_index : String) : Except PyError DataFrame :=
  match unsmryKey time_index with
  | .error e => .error e
  | .ok dataname =>
    match get_df store dataname with
    | .error e => .error e
    | .ok data =>
      if data.rows.length = 0 then
        .error (.valueError "No data found")
      else
        if "REAL" ∈ data.cols ∧ "DATE" ∈ data.cols then
          .ok (selectCols data ("REAL" :: "DATE" :: column_keys.flatMap
            (fun col_key => data.cols.filter (fun c => fnmatchMatch col_key c))))
        else
          .error (.keyError "REAL/DATE")

/-- One row of the `get_smry_stats` output frame for one column key: the date
(`index`), the repeated column name, and the five statistics. -/
structure SmryStatsRow where
  date : ℚ
  name : String
  mean : ℚ
  p10 : ℚ
  p90 : ℚ
  max : ℚ
  min : ℚ
  deriving DecidableEq, Repr

/-- The distinct `DATE` values of a frame in ascending order
(`dframe.groupby('DATE').first().index.values`). -/
def smryDates (df : DataFrame) : List ℚ :=
  ((colVals df "DATE").dedup).insertionSort (fun a b => a ≤ b)

/-- The values of column `key` among the rows of `df` at date `d`. -/
def valuesAtDate (df : DataFrame) (d : ℚ) (key : String) : List ℚ :=
  (df.rows.filter (fun r => cellOf df r "DATE" = d)).map
    (fun r => cellOf df r key)

/-- `VirtualEnsemble.get_smry_stats`: fetch the summary frame via `get_smry`,
then for every entry of `column_keys` (used directly as a column label —
pandas `KeyError` when absent) produce one row per distinct date, ascending,
holding the per-date `mean`, the statistical `0.90` quantile labelled `p10`,
the statistical `0.10` quantile labelled `p90`, `max` and `min` of that
column. -/
def get_smry_stats (store : VStore) (column_keys : List String)
    (time_index : String) :
    Except PyError (List (String × List SmryStatsRow)) :=
  match get_smry store column_keys time_index with
  | .error e => .error e
  | .ok dframe =>
    exceptMapM (fun key =>
    if key ∈ dframe.cols then
      .ok (key, (smryDates dframe).map (fun d =>
        { date := d,
          name := key,
          mean := listMean (valuesAtDate dframe d key),
          p10 := pandasQuantile (valuesAtDate dframe d key) (90/100),
          p90 := pandasQuantile (valuesAtDate dframe d key) (10/100),
          max := listMax (valuesAtDate dframe d key),
          min := listMin (valuesAtDate dframe d key) }))
      else .error (.keyError key)) column_keys

/-- One raw observation unit as parsed from the observation mapping: a record
of the fields the three implemented categories read (`localpath`, `key`,
`value`, `histvec`).  Fields irrelevant to a unit's category are simply never
read. -/
structure ObsUnitD where
  localpath : String := ""
  key : String := ""
  value : ℚ := 0
  histvec : String := ""
  deriving DecidableEq, Repr

/-- The value bound to one top-level category of the observation dictionary:
a list of units, or any non-list value (whose description is irrelevant —
`_clean_observations` pops it either way). -/
inductive ObsVal where
  | ulist (units : List ObsUnitD)
  | nonList (descr : String)
  deriving DecidableEq, Repr

/-- Whether an `ObsVal` is a list (`isinstance(self.observations[key], list)`).
-/
def ObsVal.isList : ObsVal → Bool
  | .ulist _ => true
  | .nonList _ => false

/-- The observation mapping: category name to value, keys unique.  The caller
of `Observations.__init__` hands over this very dictionary (for dict input
`self.observations = observations` aliases, never copies), so every `pop`
performed during validation is visible on the caller's object. -/
abbrev ObsDict := List (String × ObsVal)

/-- `supported_categories` of `Observations._clean_observations`. -/
def supported_categories : List String := ["smry", "smryh", "txt", "scalar", "rft"]

/-- `Observations._clean_observations` as a state transformer on the single
shared dictionary: pop every top-level key that is not a supported category
or whose value is not a list (Python-2 `dict.keys()` snapshots, so popping
while iterating is well-defined); afterwards raise a bare `ValueError` when
nothing remains. -/
def clean_observations (obs : ObsDict) : ObsDict :=
  obs.filter (fun kv => kv.1 ∈ supported_categories ∧ kv.2.isList)

/-- `Observations.__init__` for dictionary input: bind `self.observations` to
the caller's dictionary itself (by reference), run `_clean_observations`
(which mutates it in place), and raise when no usable category remains.  The
returned dictionary is simultaneously `self.observations` and the caller's
object after construction — the aliasing is modelled by returning the single
shared post-state. -/
def observations_init (observations : ObsDict) : Except PyError ObsDict :=
  let cleaned := clean_observations observations
  if cleaned.isEmpty then .error (.valueError "")
  else .ok cleaned

/-- The value a realization's `get_df` returns for one localpath: a scalar or
a named-field table.  Modelled from the spec: the realization-like read
contract (`get_field`/scalar reads, §6) — `realization.py` and
`virtualrealization.py` are not part of the embedded sources. -/
inductive SimValue where
  | num (x : ℚ)
  | table (d : List (String × ℚ))
  deriving DecidableEq, Repr

/-- A realization-like data source as `_realization_mismatch` reads it.
Modelled from the spec: the narrow read contract of §6 — `get_df` resolves a
localpath/key to a scalar or a table, and `get_smry` returns time series
(column name to the series' values, all series aligned on the shared time
index). -/
structure RealizationM where
  dfs : List (String × SimValue)
  smrycols : List (String × List ℚ)
  deriving DecidableEq, Repr

/-- Python-2 `cmp(x, 0)`: the sign of `x` as `-1`, `0` or `1`. -/
def pycmp0 (x : ℚ) : Int :=
  if x < 0 then -1 else if 0 < x then 1 else 0

/-- One row of the mismatch dataframe.  `DATE`/`OBSINDEX` are never set by the
source and are omitted; `SIGN` is absent (`none`, NaN in the concatenated
frame) for `smryh` rows, which the source builds without a `SIGN` entry.
`L2` is a `PyFloat` because the `smryh` row takes a square root. -/
structure MismatchRow where
  OBSTYPE : String
  OBSKEY : String
  MISMATCH : ℚ
  L1 : ℚ
  L2 : PyFloat
  SIGN : Option Int
  REAL : Option ℚ := none
  deriving DecidableEq, Repr

/-- The rows `_realization_mismatch` appends for a single observation unit of
category `obstype`: the `txt`, `scalar` and `smryh` branches of the source
loop; any other category (in particular `rft` and `smry`) has no branch and
contributes nothing.  A missing localpath/key/series raises the
corresponding Python lookup error. -/
def unitMismatch (obstype : String) (u : ObsUnitD) (real : RealizationM) :
    Except PyError (List MismatchRow) :=
  if obstype = "txt" then
    match real.dfs.lookup u.localpath with
    | some (.table d) =>
      match d.lookup u.key with
      | some sim_value =>
        let mismatch := sim_value - u.value
        .ok [{ OBSTYPE := obstype, OBSKEY := u.localpath ++ "/" ++ u.key,
               MISMATCH := mismatch, L1 := |mismatch|,
               L2 := .rat (|mismatch| ^ 2), SIGN := some (pycmp0 mismatch) }]
      | none => .error (.keyError u.key)
    | _ => .error (.keyError u.localpath)
  else if obstype = "scalar" then
    match real.dfs.lookup u.key with
    | some (.num sim_value) =>
      let mismatch := sim_value - u.value
      .ok [{ OBSTYPE := obstype, OBSKEY := u.key,
             MISMATCH := mismatch, L1 := |mismatch|,
             L2 := .rat (|mismatch| ^ 2), SIGN := some (pycmp0 mismatch) }]
    | _ => .error (.keyError u.key)
  else if obstype = "smryh" then
    match real.smrycols.lookup u.key, real.smrycols.lookup u.histvec with
    | some keyseries, some histseries =>
      let mismatch := List.zipWith (fun a b => a - b) keyseries histseries
      .ok [{ OBSTYPE := "smryh", OBSKEY := u.key,
             MISMATCH := mismatch.sum,
             L1 := (mismatch.map (fun d => |d|)).sum,
             L2 := .sqrt ((mismatch.map (fun d => d ^ 2)).sum),
             SIGN := none }]
    | _, _ => .error (.keyError (u.key ++ "/" ++ u.histvec))
  else
    .ok []

/-- `Observations._realization_mismatch`: loop over every category and every
unit within it, appending each unit's rows in order. -/
def realization_mismatch (obs : ObsDict) (real : RealizationM) :
    Except PyError (List MismatchRow) :=
  obs.foldlM (fun acc kv =>
    match kv.2 with
    | .ulist units =>
      units.foldlM (fun acc2 u =>
        (unitMismatch kv.1 u real).map (fun rows => acc2 ++ rows)) acc
    | .nonList _ => .error (.valueError "not iterable")) []

/-- The possible arguments of `Observations.mismatch`, by the classes its
`isinstance` chain tests.  A `ScratchEnsemble` (external to the embedded
sources) is — modelled from the spec — a mapping from integer index to a
realization-like object (`_realizations.items()`); a `VirtualEnsemble` is the
class embedded above, which defines **no** `_realizations` attribute;
`ScratchRealization`/`VirtualRealization` both satisfy the realization read
contract (`RealizationM`); `other` is any object of any further type. -/
inductive EnsOrReal where
  | scratchEns (reals : List (ℚ × RealizationM))
  | virtEns (store : VStore)
  | scratchReal (r : RealizationM)
  | virtReal (r : RealizationM)
  | other (descr : String)

/-- `Observations.mismatch`: for ensemble-like input, loop over
`_realizations`, tag each realization's rows with its index in a `REAL`
column and concatenate (a `VirtualEnsemble` raises `AttributeError` here — it
has no `_realizations` attribute); for realization-like input, return
`_realization_mismatch` directly.  For anything else the chain evaluates
`isinstance(ens_or_real, EnsembleSet)`, and the name `EnsembleSet` is not
imported in `observations.py`, so a `NameError` is raised — the final
`ValueError("Unsupported object for mismatch calculation")` branch is
unreachable. -/
def mismatch (obs : ObsDict) (ens_or_real : EnsOrReal) :
    Except PyError (List MismatchRow) :=
  match ens_or_real with
  | .virtEns _ => .error (.attributeError "_realizations")
  | .scratchEns reals =>
    reals.foldlM (fun acc ir =>
      (realization_mismatch obs ir.2).map (fun rows =>
        acc ++ rows.map (fun row => { row with REAL := some ir.1 }))) []
  | .scratchReal r => realization_mismatch obs r
  | .virtReal r => realization_mismatch obs r
  | .other _ => .error (.nameError "EnsembleSet")

/-! ## Helper lemmas -/

theorem mem_of_lookup_eq_some {β : Type} {l : List (String × β)} {k : String}
    {v : β} (h : l.lookup k = some v) : (k, v) ∈ l := by
  induction l with
  | nil => simp [List.lookup] at h
  | cons kv t ih =>
    cases kv with
    | mk k1 v1 =>
      rw [List.lookup_cons] at h
      split at h
      · next heq =>
        simp only [beq_iff_eq] at heq
        injection h with h2
        subst heq h2
        exact List.mem_cons_self _ _
      · exact List.mem_cons_of_mem _ (ih h)

theorem lookup_isSome_of_mem_fst {β : Type} {l : List (String × β)} {k : String}
    (h : k ∈ l.map Prod.fst) : (l.lookup k).isSome := by
  induction l with
  | nil => simp at h
  | cons kv t ih =>
    cases kv with
    | mk k1 v1 =>
      rw [List.lookup_cons]
      split
      · simp
      · next hne =>
        simp only [List.map_cons, List.mem_cons] at h
        rcases h with h | h
        · simp [h] at hne
        · exact ih h

theorem exceptMapM_ok_mem {α β ε : Type} {f : α → Except ε β} {l : List α}
    {res : List β} (h : exceptMapM f l = .ok res) {b : β} (hb : b ∈ res) :
    ∃ a ∈ l, f a = .ok b := by
  induction l generalizing res with
  | nil =>
    simp only [exceptMapM] at h
    cases h
    simp at hb
  | cons a t ih =>
    simp only [exceptMapM] at h
    cases hfa : f a with
    | error e => rw [hfa] at h; cases h
    | ok b0 =>
      rw [hfa] at h
      cases hrest : exceptMapM f t with
      | error e => rw [hrest] at h; cases h
      | ok bs =>
        rw [hrest] at h
        injection h with h
        subst h
        rcases List.mem_cons.mp hb with hb | hb
        · exact ⟨a, List.mem_cons_self a t, by rw [hfa, hb]⟩
        · obtain ⟨a2, ha2, hf2⟩ := ih hrest hb
          exact ⟨a2, List.mem_cons_of_mem _ ha2, hf2⟩

theorem exceptMapM_isOk {α β ε : Type} {f : α → Except ε β} {l : List α}
    (h : ∀ a ∈ l, ∃ b, f a = .ok b) : ∃ res, exceptMapM f l = .ok res := by
  induction l with
  | nil => exact ⟨[], rfl⟩
  | cons a t ih =>
    obtain ⟨b, hb⟩ := h a (List.mem_cons_self a t)
    obtain ⟨res, hres⟩ := ih (fun x hx => h x (List.mem_cons_of_mem _ hx))
    exact ⟨b :: res, by simp only [exceptMapM]; rw [hb, hres]⟩

theorem basename_no_slash (s : String) : '/' ∉ (basename s).data := by
  intro hmem
  have hdata : (basename s).data
      = (s.data.reverse.takeWhile (fun c => decide (c ≠ '/'))).reverse := rfl
  rw [hdata, List.mem_reverse] at hmem
  have := List.mem_takeWhile_imp hmem
  simp at this

theorem basename_idem (s : String) : basename (basename s) = basename s := by
  have hns := basename_no_slash s
  show String.mk (((basename s).data.reverse.takeWhile
    (fun c => decide (c ≠ '/'))).reverse) = basename s
  have htw : (basename s).data.reverse.takeWhile (fun c => decide (c ≠ '/'))
      = (basename s).data.reverse := by
    apply List.takeWhile_eq_self_iff.mpr
    intro c hc
    rw [List.mem_reverse] at hc
    simp only [decide_eq_true_eq]
    intro heq
    subst heq
    exact hns hc
  rw [htw, List.reverse_reverse]

/-! ## Claim theorems -/

/-- C3: for every `smryh` observation unit evaluated against a realization
whose store resolves both the key series and the historical-vector series,
the produced mismatch row has `MISMATCH` equal to the sum of the elementwise
differences (key series minus historical series), `L1` equal to the sum of
absolute differences, and `L2` equal to the square root (root-sum-of-squares,
not summed squares) of the sum of squared differences. -/
theorem smryh_mismatch_sum_l1_l2 (real : RealizationM) (u : ObsUnitD)
    (ks hs : List ℚ)
    (hk : real.smrycols.lookup u.key = some ks)
    (hh : real.smrycols.lookup u.histvec = some hs) :
    realization_mismatch [("smryh", .ulist [u])] real =
      .ok [{ OBSTYPE := "smryh", OBSKEY := u.key,
             MISMATCH := (List.zipWith (fun a b => a - b) ks hs).sum,
             L1 := ((List.zipWith (fun a b => a - b) ks hs).map (fun d => |d|)).sum,
             L2 := .sqrt (((List.zipWith (fun a b => a - b) ks hs).map
               (fun d => d ^ 2)).sum),
             SIGN := none }] ∧
    (PyFloat.sqrt (((List.zipWith (fun a b => a - b) ks hs).map
        (fun d => d ^ 2)).sum)).toReal
      = Real.sqrt ((((List.zipWith (fun a b => a - b) ks hs).map
        (fun d => d ^ 2)).sum : ℚ) : ℝ) := by
  refine ⟨?_, rfl⟩
  simp [realization_mismatch, unitMismatch, hk, hh, Except.map]

/-- C3 witness: for series `[2,3,4]` against history `[1,2,3]` (elementwise
differences `[1,1,1]`) the single produced row carries `MISMATCH = 3`,
`L1 = 3` and `L2 = √3`. -/
theorem smryh_mismatch_sum_l1_l2_witness :
    realization_mismatch [("smryh", .ulist [{ key := "FOPT", histvec := "FOPTH" }])]
        { dfs := [], smrycols := [("FOPT", [2, 3, 4]), ("FOPTH", [1, 2, 3])] } =
      .ok [{ OBSTYPE := "smryh", OBSKEY := "FOPT", MISMATCH := 3, L1 := 3,
             L2 := .sqrt 3, SIGN := none }] ∧
    (PyFloat.sqrt (3 : ℚ)).toReal = Real.sqrt ((3 : ℚ) : ℝ) := by
  have h := smryh_mismatch_sum_l1_l2
    { dfs := [], smrycols := [("FOPT", [2, 3, 4]), ("FOPTH", [1, 2, 3])] }
    { key := "FOPT", histvec := "FOPTH" } [2, 3, 4] [1, 2, 3] rfl rfl
  constructor
  · rw [h.1]; norm_num
  · have h2 := h.2
    norm_num at h2
    convert h2 using 2

/-- Helper for C5: a fold of `rft` units appends nothing — the `rft`
category has no branch in `_realization_mismatch`. -/
theorem rft_fold_aux (real : RealizationM) (units : List ObsUnitD)
    (acc : List MismatchRow) :
    units.foldlM (fun acc2 u =>
      (unitMismatch "rft" u real).map (fun rows => acc2 ++ rows)) acc
      = .ok acc := by
  induction units generalizing acc with
  | nil => rfl
  | cons u t ih =>
    rw [List.foldlM_cons]
    have hu : unitMismatch "rft" u real = .ok [] := rfl
    rw [hu]
    show t.foldlM _ (acc ++ []) = _
    rw [List.append_nil]
    exact ih acc

/-- C5: `rft` observation units are silently skipped, contrary to the claim
(and to `_realization_mismatch`'s own docstring "One row for every
observation unit"): an observation set holding only `rft` units passes
construction (`rft` is a supported category), yet per-realization mismatch
evaluation returns an empty table with no error and no signal of any kind.
-/
theorem rft_units_silently_skipped (units : List ObsUnitD) (real : RealizationM) :
    observations_init [("rft", .ulist units)] = .ok [("rft", .ulist units)] ∧
    realization_mismatch [("rft", .ulist units)] real = .ok [] := by
  refine ⟨rfl, ?_⟩
  rw [show realization_mismatch [("rft", .ulist units)] real
      = (units.foldlM (fun acc2 u =>
          (unitMismatch "rft" u real).map (fun rows => acc2 ++ rows)) [])
        >>= (fun b => pure b) from rfl,
      rft_fold_aux real units []]
  rfl

/-- C6: every argument of `Observations.mismatch` that is neither
ensemble-like nor realization-like makes the `isinstance` chain evaluate the
unimported name `EnsembleSet`, raising `NameError` — never the dedicated
`ValueError("Unsupported object for mismatch calculation")`, whose branch is
unreachable. -/
theorem mismatch_other_raises_nameerror (obs : ObsDict) (descr : String) :
    mismatch obs (.other descr) = .error (.nameError "EnsembleSet") ∧
    mismatch obs (.other descr)
      ≠ .error (.valueError "Unsupported object for mismatch calculation") := by
  refine ⟨rfl, ?_⟩
  intro h
  rw [show mismatch obs (.other descr) = .error (.nameError "EnsembleSet") from rfl] at h
  exact absurd h (by simp)

/-- C10: `Observations.__init__` aliases the caller's dictionary
(`self.observations = observations`) and `_clean_observations` pops invalid
top-level entries from that shared object, so after a successful construction
the caller's mapping is exactly the cleaned mapping: every category outside
the supported set, and every entry whose value is not a list, is gone from
it. -/
theorem unsupported_categories_popped_from_caller (obs res : ObsDict)
    (h : observations_init obs = .ok res) :
    res = clean_observations obs ∧
    (∀ c, c ∉ supported_categories → c ∉ res.map Prod.fst) ∧
    (∀ c v, v.isList = false → (c, v) ∉ res) := by
  have hres : res = clean_observations obs := by
    unfold observations_init at h
    simp only [] at h
    split at h
    · cases h
    · injection h with h; exact h.symm
  subst hres
  refine ⟨rfl, ?_, ?_⟩
  · intro c hc hmem
    rw [List.mem_map] at hmem
    obtain ⟨kv, hkv, hfst⟩ := hmem
    have := (List.mem_filter.mp hkv).2
    rw [hfst] at this
    simp only [decide_eq_true_eq] at this
    exact hc this.1
  · intro c v hv hmem
    have := (List.mem_filter.mp hmem).2
    simp only [decide_eq_true_eq] at this
    rw [hv] at this
    exact absurd this.2 (by simp)

/-- C10 witness: constructing from a dictionary holding the unsupported
category `badcat` alongside a valid `txt` category succeeds, and afterwards
`badcat` is gone from the (shared, caller-visible) mapping. -/
theorem unsupported_categories_popped_from_caller_witness :
    ([("txt", ObsVal.ulist [])] : ObsDict)
        = clean_observations [("badcat", .ulist []), ("txt", .ulist [])] ∧
    "badcat" ∉ ([("txt", ObsVal.ulist [])] : ObsDict).map Prod.fst := by
  have h := unsupported_categories_popped_from_caller
    [("badcat", .ulist []), ("txt", .ulist [])] [("txt", .ulist [])] rfl
  exact ⟨h.1, h.2.1 "badcat" (by decide)⟩

/-- A store in which the shorthand `"x"` is the basename of two stored keys
while being the extension-stripped form of a third. -/
def storeC2 : VStore :=
  [("a/x", { cols := ["REAL"], rows := [[0]] }),
   ("b/x", { cols := ["REAL"], rows := [[1]] }),
   ("x.csv", { cols := ["REAL"], rows := [[2]] })]

/-- C2 counterexample: two stored keys (`a/x`, `b/x`) share the shorthand
`"x"` as their basename, yet `get_df` does not raise — it silently resolves
`"x"` through the later no-extension form to the third key `x.csv` and
returns that key's table. -/
theorem shorthand_ambiguity_not_raised :
    (storeC2.filter (fun p => basename p.1 == "x")).length = 2 ∧
    get_df storeC2 "x" = .ok { cols := ["REAL"], rows := [[2]] } ∧
    ("x.csv", ({ cols := ["REAL"], rows := [[2]] } : DataFrame)) ∈ storeC2 ∧
    basename "x.csv" ≠ "x" := by
  refine ⟨rfl, rfl, by decide, by decide⟩

/-- C2 amended: `get_df` tries the forms in order — exact key, basename,
path-without-extension, basename-without-extension — resolving to the stored
table of the unique match of the first form matched by exactly one stored
key; it raises exactly when the shorthand is no exact key and *no* form has
exactly one match.  In particular a shorthand that is the basename of exactly
one stored key returns that key's table, but a shorthand that is ambiguous
under one form falls through to the later forms instead of raising. -/
theorem shorthand_resolution_characterization :
    (∀ (store : VStore) (sp : String) (kv : String × DataFrame),
       store.filter (fun p => basename p.1 == sp) = [kv] →
       get_df store sp = .ok kv.2) ∧
    (∀ (store : VStore) (sp : String),
       get_df store sp = .error (.valueError sp) ↔
         (store.lookup sp = none ∧
          (store.filter (fun p => basename p.1 == sp)).length ≠ 1 ∧
          (store.filter (fun p => noext p.1 == sp)).length ≠ 1 ∧
          (store.filter (fun p => basenameNoext p.1 == sp)).length ≠ 1)) := by
  constructor
  · intro store sp kv hfilter
    have hkvmem : kv ∈ store.filter (fun p => basename p.1 == sp) := by
      rw [hfilter]; exact List.mem_cons_self _ _
    have hkvbase : basename kv.1 = sp := by
      have := (List.mem_filter.mp hkvmem).2
      simpa using this
    unfold get_df
    split
    · next df hdf =>
      have hmem : (sp, df) ∈ store := mem_of_lookup_eq_some hdf
      have hspbase : basename sp = sp := by
        rw [← hkvbase, basename_idem]
      have hmemf : (sp, df) ∈ store.filter (fun p => basename p.1 == sp) :=
        List.mem_filter.mpr ⟨hmem, by simp [hspbase]⟩
      rw [hfilter] at hmemf
      rcases List.mem_singleton.mp hmemf with h
      rw [← h]
    · rw [hfilter]
  · intro store sp
    unfold get_df
    split
    · next df hdf =>
      simp [hdf]
    · next hnone =>
      split
      · next kv heq => simp [heq]
      · next hne1 =>
        split
        · next kv heq => simp [heq]
        · next hne2 =>
          split
          · next kv heq => simp [heq]
          · next hne3 =>
            constructor
            · intro _
              refine ⟨hnone, ?_, ?_, ?_⟩
              · intro hlen
                obtain ⟨a, ha⟩ := List.length_eq_one.mp hlen
                exact hne1 a ha
              · intro hlen
                obtain ⟨a, ha⟩ := List.length_eq_one.mp hlen
                exact hne2 a ha
              · intro hlen
                obtain ⟨a, ha⟩ := List.length_eq_one.mp hlen
                exact hne3 a ha
            · intro _
              rfl

/-- C2 witness: the unique-basename branch resolves `vol.csv` to
`share/vol.csv`'s table, and an unmatched shorthand raises
`ValueError(shorthand)`. -/
theorem shorthand_resolution_characterization_witness :
    get_df [("share/vol.csv",
        ({ cols := ["REAL"], rows := [[0]] } : DataFrame))] "vol.csv"
      = .ok { cols := ["REAL"], rows := [[0]] } ∧
    get_df [("share/vol.csv",
        ({ cols := ["REAL"], rows := [[0]] } : DataFrame))] "zzz"
      = .error (.valueError "zzz") := by
  constructor
  · exact shorthand_resolution_characterization.1 _ "vol.csv"
      ("share/vol.csv", { cols := ["REAL"], rows := [[0]] }) rfl
  · exact (shorthand_resolution_characterization.2 _ "zzz").mpr
      ⟨rfl, by decide, by decide, by decide⟩

/-- A store whose `parameters.txt` table only knows realization 0 while the
table `tab` also holds a row of realization 1. -/
def storeC4 : VStore :=
  [("parameters.txt", { cols := ["REAL", "P"], rows := [[0, 5]] }),
   ("tab", { cols := ["REAL", "V"], rows := [[0, 1], [1, 2]] })]

/-- C4 counterexample: `remove_realizations` takes its known indices from the
`parameters.txt` table only.  Requesting removal of index 1 — present in the
stored table `tab` but not in `parameters.txt` — merely warns and leaves
every stored row in place: the row `[1, 2]` of `tab`, whose `REAL` is the
requested index 1, is *not* dropped, contradicting "drops from every stored
table all rows whose REAL value is in the given indices". -/
theorem remove_realizations_misses_unknown_index :
    remove_realizations storeC4 [1] = .ok { store := storeC4, warnedIndices := [1] } ∧
    ("tab", ({ cols := ["REAL", "V"], rows := [[0, 1], [1, 2]] } : DataFrame)) ∈ storeC4 ∧
    cellOf { cols := ["REAL", "V"], rows := [[0, 1], [1, 2]] } [1, 2] "REAL" = 1 := by
  refine ⟨rfl, by decide, by decide⟩

/-- C4 amended: for a store holding a `parameters.txt` table,
`remove_realizations` drops from every stored table exactly the rows whose
`REAL` lies in the intersection of the requested indices with the distinct
`REAL` values of `parameters.txt`; requested indices outside that set are
only warned about — no error — and when no requested index is known the call
changes no stored rows at all (idempotent no-op). -/
theorem remove_realizations_drops_known_only (store : VStore)
    (params : DataFrame) (indices : List ℚ)
    (h : store.lookup "parameters.txt" = some params) :
    remove_realizations store indices = .ok
      { store := store.map (fun kv =>
          (kv.1, DataFrame.mk kv.2.cols (kv.2.rows.filter
            (fun r => cellOf kv.2 r "REAL" ∉
              indices.dedup.filter (fun i => i ∈ (colVals params "REAL").dedup))))),
        warnedIndices :=
          indices.dedup.filter (fun i => i ∉ (colVals params "REAL").dedup) } ∧
    ((∀ i ∈ indices, i ∉ (colVals params "REAL").dedup) →
      remove_realizations store indices
        = .ok { store := store, warnedIndices := indices.dedup }) := by
  constructor
  · unfold remove_realizations
    rw [h]
  · intro hall
    have h1 : remove_realizations store indices = .ok
        { store := store.map (fun kv =>
            (kv.1, DataFrame.mk kv.2.cols (kv.2.rows.filter
              (fun r => cellOf kv.2 r "REAL" ∉
                indices.dedup.filter
                  (fun i => i ∈ (colVals params "REAL").dedup))))),
          warnedIndices :=
            indices.dedup.filter
              (fun i => i ∉ (colVals params "REAL").dedup) } := by
      unfold remove_realizations
      rw [h]
    have htd : indices.dedup.filter
        (fun i => i ∈ (colVals params "REAL").dedup) = [] := by
      apply List.filter_eq_nil_iff.mpr
      intro i hi
      simpa using hall i (List.mem_dedup.mp hi)
    have hwarn : indices.dedup.filter
        (fun i => i ∉ (colVals params "REAL").dedup) = indices.dedup := by
      apply List.filter_eq_self.mpr
      intro i hi
      simpa using hall i (List.mem_dedup.mp hi)
    rw [h1, htd, hwarn]
    have hrows : ∀ df : DataFrame,
        df.rows.filter (fun r => cellOf df r "REAL" ∉ ([] : List ℚ)) = df.rows :=
      fun df => List.filter_eq_self.mpr (fun r _ => by simp)
    simp only [hrows]
    have hmapid : (fun (kv : String × DataFrame) =>
        (kv.1, DataFrame.mk kv.2.cols kv.2.rows)) = id := funext (fun kv => rfl)
    rw [hmapid, List.map_id]

/-- C4 witness: removing the unknown index 3 from `storeC4` is a warned
no-op. -/
theorem remove_realizations_drops_known_only_witness :
    remove_realizations storeC4 [3]
      = .ok { store := storeC4, warnedIndices := [3] } := by
  have h := remove_realizations_drops_known_only storeC4
    { cols := ["REAL", "P"], rows := [[0, 5]] } [3] rfl
  exact h.2 (by decide)

/-- Helper for C8: `projectKey` skips a key exactly when the key has no row
of the requested realization. -/
theorem projectKey_eq_none_iff (i : ℚ) (kv : String × DataFrame) :
    projectKey i kv = none ↔ realRows kv.2 i = [] := by
  unfold projectKey
  split
  · next hre => simp [hre]
  · next r hre => simp [hre]
  · next h1 h2 => simp_all

/-- Helper for C8: every row the projection keeps has `REAL` equal to the
requested index. -/
theorem realRows_real (df : DataFrame) (i : ℚ) :
    ∀ r ∈ realRows df i, cellOf df r "REAL" = i := by
  intro r hr
  have := (List.mem_filter.mp hr).2
  simpa using this

/-- C8: `get_realization store i` raises exactly when no stored key has a row
with `REAL == i`; on success every produced entry comes from a stored key
whose matching rows are non-empty and consist only of rows with `REAL == i`
(no data from any other realization), a single matching row collapsing to a
scalar mapping without `REAL` and several matching rows remaining a frame
(in row order) without the `REAL` column — and every stored key with at
least one matching row is present in the result. -/
theorem get_realization_projection (store : VStore) (i : ℚ) :
    (get_realization store i = .error (.valueError "No data for realization")
       ↔ ∀ kv ∈ store, realRows kv.2 i = []) ∧
    (∀ es, get_realization store i = .ok es →
      (∀ k d, (k, d) ∈ es → ∃ df, (k, df) ∈ store ∧ realRows df i ≠ [] ∧
        (∀ r ∈ realRows df i, cellOf df r "REAL" = i) ∧
        ((∃ r, realRows df i = [r] ∧
            d = .scalarDict ((df.cols.zip r).filter (fun p => p.1 ≠ "REAL"))) ∨
         (2 ≤ (realRows df i).length ∧
            d = .frame (dropCol { cols := df.cols, rows := realRows df i } "REAL")))) ∧
      (∀ kv ∈ store, realRows kv.2 i ≠ [] → ∃ d, (kv.1, d) ∈ es)) := by
  have hnil : (store.filterMap (projectKey i) = []) ↔
      (∀ kv ∈ store, realRows kv.2 i = []) := by
    rw [List.filterMap_eq_nil_iff]
    constructor
    · intro h kv hkv
      exact (projectKey_eq_none_iff i kv).mp (h kv hkv)
    · intro h kv hkv
      exact (projectKey_eq_none_iff i kv).mpr (h kv hkv)
  constructor
  · unfold get_realization
    split
    · next hemp =>
      exact iff_of_true rfl (hnil.mp (List.isEmpty_iff.mp hemp))
    · next hne =>
      refine iff_of_false (by simp) ?_
      intro hall
      exact hne (by rw [List.isEmpty_iff]; exact hnil.mpr hall)
  · intro es hes
    have hesv : es = store.filterMap (projectKey i) := by
      unfold get_realization at hes
      split at hes
      · cases hes
      · injection hes with hes; exact hes.symm
    subst hesv
    constructor
    · intro k d hmem
      obtain ⟨kv, hkv, hpk⟩ := List.mem_filterMap.mp hmem
      refine ⟨kv.2, ?_, ?_⟩
      · unfold projectKey at hpk
        split at hpk
        · cases hpk
        · injection hpk with hpk
          rw [Prod.mk.injEq] at hpk
          rw [← hpk.1]
          simpa using hkv
        · injection hpk with hpk
          rw [Prod.mk.injEq] at hpk
          rw [← hpk.1]
          simpa using hkv
      · refine ⟨?_, realRows_real kv.2 i, ?_⟩
        · intro hre
          have : projectKey i kv = none := (projectKey_eq_none_iff i kv).mpr hre
          rw [this] at hpk
          cases hpk
        · unfold projectKey at hpk
          split at hpk
          · cases hpk
          · next r hre =>
            injection hpk with hpk
            rw [Prod.mk.injEq] at hpk
            left
            exact ⟨r, hre, hpk.2.symm⟩
          · injection hpk with hpk
            rw [Prod.mk.injEq] at hpk
            right
            refine ⟨?_, hpk.2.symm⟩
            rcases hre : realRows kv.2 i with _ | ⟨r1, _ | ⟨r2, t⟩⟩
            · simp_all
            · simp_all
            · simp [hre]
    · intro kv hkv hne
      rcases hre : realRows kv.2 i with _ | ⟨r1, _ | ⟨r2, t⟩⟩
      · exact absurd hre hne
      · exact ⟨.scalarDict ((kv.2.cols.zip r1).filter (fun p => p.1 ≠ "REAL")),
          List.mem_filterMap.mpr ⟨kv, hkv, by unfold projectKey; rw [hre]⟩⟩
      · exact ⟨.frame (dropCol { cols := kv.2.cols, rows := r1 :: r2 :: t } "REAL"),
          List.mem_filterMap.mpr ⟨kv, hkv, by unfold projectKey; rw [hre]⟩⟩

/-- A store with two realizations in `parameters.txt` and a three-row `tab`.
-/
def storeC8 : VStore :=
  [("parameters.txt", { cols := ["REAL", "P"], rows := [[0, 5], [1, 6]] }),
   ("tab", { cols := ["REAL", "V"], rows := [[0, 1], [0, 2], [1, 3]] })]

/-- C8 witness: projecting the absent realization 7 raises, and projecting
realization 0 yields for `tab` exactly its two `REAL = 0` rows as a frame
with the `REAL` column dropped. -/
theorem get_realization_projection_witness :
    get_realization storeC8 7 = .error (.valueError "No data for realization") ∧
    (∃ df, ("tab", df) ∈ storeC8 ∧ realRows df 0 ≠ [] ∧
      (∀ r ∈ realRows df 0, cellOf df r "REAL" = 0) ∧
      ((∃ r, realRows df 0 = [r] ∧
          (VRealData.frame { cols := ["V"], rows := [[1], [2]] })
            = .scalarDict ((df.cols.zip r).filter (fun p => p.1 ≠ "REAL"))) ∨
       (2 ≤ (realRows df 0).length ∧
          (VRealData.frame { cols := ["V"], rows := [[1], [2]] })
            = .frame (dropCol { cols := df.cols, rows := realRows df 0 } "REAL")))) := by
  constructor
  · exact (get_realization_projection storeC8 7).1.mpr (by decide)
  · exact ((get_realization_projection storeC8 0).2 _ rfl).1 "tab"
      (.frame { cols := ["V"], rows := [[1], [2]] }) (by decide)

/-- Helper for C7: `shortcut2path` always answers with a string that is a
stored key whenever its input is one — each cascade branch returns a filtered
store entry's key, and the fallthrough returns the input. -/
theorem shortcut2path_mem (store : VStore) (k : String)
    (hk : k ∈ store.map Prod.fst) :
    shortcut2path store k ∈ store.map Prod.fst := by
  unfold shortcut2path
  split
  · next kv heq =>
    have : kv ∈ store.filter (fun kv => basename kv.1 == k) := by
      rw [heq]; exact List.mem_cons_self _ _
    exact List.mem_map.mpr ⟨kv, List.mem_of_mem_filter this, rfl⟩
  · split
    · next kv heq =>
      have : kv ∈ store.filter (fun kv => noext kv.1 == k) := by
        rw [heq]; exact List.mem_cons_self _ _
      exact List.mem_map.mpr ⟨kv, List.mem_of_mem_filter this, rfl⟩
    · split
      · next kv heq =>
        have : kv ∈ store.filter (fun kv => basenameNoext kv.1 == k) := by
          rw [heq]; exact List.mem_cons_self _ _
        exact List.mem_map.mpr ⟨kv, List.mem_of_mem_filter this, rfl⟩
      · exact hk

/-- Helper for C7: `get_df` succeeds on every stored key. -/
theorem get_df_ok_of_mem (store : VStore) (k : String)
    (hk : k ∈ store.map Prod.fst) : ∃ df, get_df store k = .ok df := by
  have := lookup_isSome_of_mem_fst hk
  unfold get_df
  cases hl : store.lookup k with
  | none => rw [hl] at this; cases this
  | some df => exact ⟨df, rfl⟩

/-- A one-key store with scalar values 10..50 over five realizations. -/
def storeC7 : VStore :=
  [("vols", { cols := ["REAL", "VALUE"],
              rows := [[0, 10], [1, 20], [2, 30], [3, 40], [4, 50]] })]

/-- C7 counterexample: the validation regex `p(\d\d)` is matched without an
end anchor, so `"p100"` — three digits after `p` — is *accepted* rather than
failing, and is interpreted as its first two digits: `agg` with `p100`
returns the `p10` aggregation (the statistical 0.90 quantile, 46 on
values 10..50). -/
theorem agg_p100_accepted :
    (∃ res, agg storeC7 "p100" [] [] = .ok res) ∧
    agg storeC7 "p100" [] [] = agg storeC7 "p10" [] [] := by
  exact ⟨⟨_, rfl⟩, rfl⟩

/-- C7 amended: `agg` fails with
`ValueError("<mode> is not asupported ensemble aggregation")` exactly for
modes that are neither in `{mean, median, min, max, std, var}` nor start
with `p` followed by two digits; any mode whose first three characters match
`p\d\d` — including over-long strings such as `p100` — is accepted (and read
as its first two digits). -/
theorem agg_mode_validation :
    (∀ (store : VStore) (s : String) (kl ek : List String),
       s ∉ supported_aggs → quantilematcher s = none →
       agg store s kl ek
         = .error (.valueError (s ++ " is not asupported ensemble aggregation"))) ∧
    (∀ (store : VStore) (s : String),
       (s ∈ supported_aggs ∨ quantilematcher s ≠ none) →
       ∃ res, agg store s [] [] = .ok res) := by
  constructor
  · intro store s kl ek h1 h2
    unfold agg
    rw [if_pos ⟨h1, h2⟩]
  · intro store s h
    unfold agg
    rw [if_neg (by
      rcases h with h | h
      · exact fun hc => hc.1 h
      · exact fun hc => h hc.2)]
    apply exceptMapM_isOk
    intro key hkey
    have hk : key ∈ store.map Prod.fst := by
      simp only [List.isEmpty_nil, if_true] at hkey
      exact (List.mem_filter.mp hkey).1
    obtain ⟨df, hdf⟩ := get_df_ok_of_mem store _ (shortcut2path_mem store key hk)
    refine ⟨(shortcut2path store key, aggKey s df), ?_⟩
    show Except.map (fun df => (shortcut2path store key, aggKey s df))
      (get_df store (shortcut2path store key)) = _
    rw [hdf]
    rfl

/-- C7 witness: the made-up mode `foo` raises the dedicated error, while the
three-digit `p100` is accepted. -/
theorem agg_mode_validation_witness :
    agg storeC7 "foo" [] []
      = .error (.valueError "foo is not asupported ensemble aggregation") ∧
    (∃ res, agg storeC7 "p100" [] [] = .ok res) := by
  constructor
  · exact agg_mode_validation.1 storeC7 "foo" [] [] (by decide) rfl
  · exact agg_mode_validation.2 storeC7 "p100" (Or.inr (by decide))

/-- A store with one monthly summary table holding a single vector `FOPT`. -/
def storeC9 : VStore :=
  [("unsmry-monthly", { cols := ["REAL", "DATE", "FOPT"],
                        rows := [[0, 1, 10], [1, 1, 20]] })]

/-- C9 counterexample: `get_smry` does **not** remove duplicates from the
matched columns — a column matched by several patterns appears once per
match.  With patterns `FOPT` and `F*` both matching the single column
`FOPT`, the returned table carries the `FOPT` column twice. -/
theorem get_smry_duplicate_columns :
    get_smry storeC9 ["FOPT", "F*"] "monthly" =
      .ok { cols := ["REAL", "DATE", "FOPT", "FOPT"],
            rows := [[0, 1, 10, 10], [1, 1, 20, 20]] } ∧
    (["REAL", "DATE", "FOPT", "FOPT"].count "FOPT") = 2 := by
  exact ⟨rfl, rfl⟩

/-- C9 amended: `get_smry` treats each entry of `column_keys` as a
shell-style glob over the selected table's column names, includes every
matching column name in first-match order with duplicates **kept** (one
occurrence per matching pattern), and always includes the `REAL` and `DATE`
columns at the front of the returned table. -/
theorem get_smry_column_selection (store : VStore) (ck : List String)
    (ti : String) (res : DataFrame) (h : get_smry store ck ti = .ok res) :
    ∃ nm data, unsmryKey ti = .ok nm ∧ get_df store nm = .ok data ∧
      res.cols = "REAL" :: "DATE" :: ck.flatMap
        (fun p => data.cols.filter (fun c => fnmatchMatch p c)) ∧
      "REAL" ∈ res.cols ∧ "DATE" ∈ res.cols ∧
      (∀ c, c ∈ res.cols.drop 2 ↔ c ∈ data.cols ∧ ∃ p ∈ ck, fnmatchMatch p c) := by
  unfold get_smry at h
  split at h
  · cases h
  · next nm hnm =>
    split at h
    · cases h
    · next data hdata =>
      split at h
      · cases h
      · split at h
        · injection h with h
          subst h
          refine ⟨nm, data, hnm, hdata, rfl, by simp [selectCols],
            by simp [selectCols], ?_⟩
          intro c
          show c ∈ ck.flatMap
            (fun p => data.cols.filter (fun c => fnmatchMatch p c)) ↔ _
          rw [List.mem_flatMap]
          constructor
          · rintro ⟨p, hp, hc⟩
            have := List.mem_filter.mp hc
            exact ⟨this.1, p, hp, this.2⟩
          · rintro ⟨hc, p, hp, hm⟩
            exact ⟨p, hp, List.mem_filter.mpr ⟨hc, hm⟩⟩
        · cases h

/-- The table `get_smry` returns on `storeC9` for the pattern list `["F*"]`.
-/
def resC9 : DataFrame :=
  { cols := ["REAL", "DATE", "FOPT"], rows := [[0, 1, 10], [1, 1, 20]] }

/-- C9 witness: on `storeC9` the pattern list `["F*"]` selects exactly
`REAL`, `DATE` and the matching column `FOPT`. -/
theorem get_smry_column_selection_witness :
    ∃ nm data, unsmryKey "monthly" = .ok nm ∧ get_df storeC9 nm = .ok data ∧
      resC9.cols = "REAL" :: "DATE" :: (["F*"].flatMap
          (fun p => data.cols.filter (fun c => fnmatchMatch p c))) ∧
      "REAL" ∈ resC9.cols ∧ "DATE" ∈ resC9.cols ∧
      (∀ c, c ∈ resC9.cols.drop 2 ↔
        c ∈ data.cols ∧ ∃ p ∈ ["F*"], fnmatchMatch p c) :=
  get_smry_column_selection storeC9 ["F*"] "monthly" resC9 rfl

/-- Helper for C1: under a mode matching `p(\d\d)` with digits `nn`, `aggKey`
is the groupby/plain quantile transform at statistical quantile
`1 - nn/100`. -/
theorem aggKey_quant (s : String) (nn : ℕ) (df : DataFrame)
    (hq : quantilematcher s = some nn) :
    aggKey s df =
      (if (groupbycolumncandidates.filter
            (fun c => c ∈ (dropCol df "REAL").cols)).isEmpty then
        plainAgg (dropCol df "REAL")
          (fun xs => .rat (pandasQuantile xs (1 - (nn : ℚ) / 100)))
      else
        groupbyAgg (dropCol df "REAL")
          (groupbycolumncandidates.filter (fun c => c ∈ (dropCol df "REAL").cols))
          (fun xs => .rat (pandasQuantile xs (1 - (nn : ℚ) / 100)))) := by
  unfold aggKey
  rw [hq]

/-- C1: `agg` aggregates each selected key's table with `aggKey` (part 1);
under any mode matching `p(\d\d)` with digit value `nn`, each output row of
`aggKey` carries, per data column, the statistical quantile `1 - nn/100` of
that column's values in the corresponding group — both with grouping
(part 2) and without (part 3).  And every per-date row `get_smry_stats`
emits labels the statistical `0.90` quantile of the date's values as `p10`
and the statistical `0.10` quantile as `p90` (part 4) — the inverted
oil-industry convention. -/
theorem agg_quantile_convention :
    (∀ (store : VStore) (s : String) (kl ek : List String)
       (res : List (String × DataFrameR)) (k2 : String) (adf : DataFrameR),
       agg store s kl ek = .ok res → (k2, adf) ∈ res →
       ∃ df, get_df store k2 = .ok df ∧ adf = aggKey s df) ∧
    (∀ (s : String) (nn : ℕ) (df : DataFrame) (data : DataFrame)
       (gcols dcols : List String),
       quantilematcher s = some nn →
       data = dropCol df "REAL" →
       gcols = groupbycolumncandidates.filter (fun c => c ∈ data.cols) →
       dcols = data.cols.filter (fun c => c ∉ gcols) →
       gcols ≠ [] →
       ∀ k ∈ groupKeys data gcols,
         (k.map PyFloat.rat ++ dcols.map (fun c =>
            PyFloat.rat (pandasQuantile (groupColVals data gcols k c)
              (1 - (nn : ℚ) / 100)))) ∈ (aggKey s df).rows) ∧
    (∀ (s : String) (nn : ℕ) (df : DataFrame) (data : DataFrame)
       (gcols : List String),
       quantilematcher s = some nn →
       data = dropCol df "REAL" →
       gcols = groupbycolumncandidates.filter (fun c => c ∈ data.cols) →
       gcols = [] →
       (aggKey s df).rows = [data.cols.map (fun c =>
          PyFloat.rat (pandasQuantile (colVals data c) (1 - (nn : ℚ) / 100)))]) ∧
    (∀ (store : VStore) (ck : List String) (ti : String)
       (out : List (String × List SmryStatsRow)) (key : String)
       (rows : List SmryStatsRow),
       get_smry_stats store ck ti = .ok out → (key, rows) ∈ out →
       ∃ dframe, get_smry store ck ti = .ok dframe ∧ ∀ row ∈ rows,
         row.p10 = pandasQuantile (valuesAtDate dframe row.date key) (90/100) ∧
         row.p90 = pandasQuantile (valuesAtDate dframe row.date key) (10/100)) := by
  refine ⟨?_, ?_, ?_, ?_⟩
  · intro store s kl ek res k2 adf hok hmem
    unfold agg at hok
    split at hok
    · cases hok
    · obtain ⟨key, hkey, hf⟩ := exceptMapM_ok_mem hok hmem
      have hf2 : Except.map (fun df => (shortcut2path store key, aggKey s df))
          (get_df store (shortcut2path store key)) = .ok (k2, adf) := hf
      cases hgd : get_df store (shortcut2path store key) with
      | error e => rw [hgd] at hf2; cases hf2
      | ok df =>
        rw [hgd] at hf2
        injection hf2 with hf2
        rw [Prod.mk.injEq] at hf2
        refine ⟨df, ?_, hf2.2.symm⟩
        rw [← hf2.1]
        exact hgd
  · intro s nn df data gcols dcols hq hdata hg hd hne k hk
    rw [aggKey_quant s nn df hq]
    rw [← hdata, ← hg]
    rw [if_neg (by simpa using hne)]
    show _ ∈ (groupKeys data gcols).map _
    refine List.mem_map.mpr ⟨k, hk, ?_⟩
    rw [← hd]
  · intro s nn df data gcols hq hdata hg hempty
    rw [aggKey_quant s nn df hq]
    rw [← hdata, ← hg]
    rw [if_pos (by simp [hempty])]
    rfl
  · intro store ck ti out key rows hok hmem
    unfold get_smry_stats at hok
    split at hok
    · cases hok
    · next dframe heq =>
      obtain ⟨ck0, hck0, hg⟩ := exceptMapM_ok_mem hok hmem
      split at hg
      · injection hg with hg
        rw [Prod.mk.injEq] at hg
        obtain ⟨hkey, hrows⟩ := hg
        subst hkey
        refine ⟨dframe, heq, ?_⟩
        intro row hrow
        rw [← hrows] at hrow
        obtain ⟨d, hd, hrowe⟩ := List.mem_map.mp hrow
        subst hrowe
        exact ⟨rfl, rfl⟩
      · cases hg

/-- A one-key ungrouped store for the C1 witness (values 10..50). -/
def storeC1 : VStore :=
  [("vols", { cols := ["REAL", "VALUE"],
              rows := [[0, 10], [1, 20], [2, 30], [3, 40], [4, 50]] })]

/-- The table stored under `vols` in `storeC1`. -/
def dfC1 : DataFrame :=
  { cols := ["REAL", "VALUE"],
    rows := [[0, 10], [1, 20], [2, 30], [3, 40], [4, 50]] }

/-- A grouped table (a `DATE` column) for the C1 witness. -/
def dfC1g : DataFrame :=
  { cols := ["REAL", "DATE", "VALUE"], rows := [[0, 1, 10], [1, 1, 20]] }

/-- A store with one monthly summary vector for the C1 witness. -/
def smryC1 : VStore :=
  [("unsmry-monthly", { cols := ["REAL", "DATE", "FOPT"],
                        rows := [[0, 1, 10], [1, 1, 20]] })]

/-- The frame `get_smry` selects from `smryC1` for `["FOPT"]`. -/
def frameC1 : DataFrame :=
  { cols := ["REAL", "DATE", "FOPT"], rows := [[0, 1, 10], [1, 1, 20]] }

/-- The per-date statistics rows `get_smry_stats` emits for `FOPT` on
`smryC1`. -/
def rowsC1 : List SmryStatsRow :=
  (smryDates frameC1).map (fun d =>
    { date := d, name := "FOPT",
      mean := listMean (valuesAtDate frameC1 d "FOPT"),
      p10 := pandasQuantile (valuesAtDate frameC1 d "FOPT") (90/100),
      p90 := pandasQuantile (valuesAtDate frameC1 d "FOPT") (10/100),
      max := listMax (valuesAtDate frameC1 d "FOPT"),
      min := listMin (valuesAtDate frameC1 d "FOPT") })

/-- C1 witness: on values 10..50 the mode `p90` yields the statistical 0.10
quantile 14 and `p10` yields the statistical 0.90 quantile 46; with a `DATE`
column the group `[1]`'s row carries the per-group quantile; and the
`get_smry_stats` rows label quantile 0.90 as `p10` (19 on values 10, 20) and
quantile 0.10 as `p90` (11). -/
theorem agg_quantile_convention_witness :
    (∃ df, get_df storeC1 "vols" = .ok df ∧ aggKey "p90" dfC1 = aggKey "p90" df) ∧
    (aggKey "p90" dfC1).rows = [[PyFloat.rat 14]] ∧
    (aggKey "p10" dfC1).rows = [[PyFloat.rat 46]] ∧
    ([(1 : ℚ)].map PyFloat.rat ++ ["VALUE"].map (fun c =>
       PyFloat.rat (pandasQuantile
         (groupColVals (dropCol dfC1g "REAL") ["DATE"] [1] c)
         (1 - ((90 : ℕ) : ℚ) / 100)))) ∈ (aggKey "p90" dfC1g).rows ∧
    (∃ dframe, get_smry smryC1 ["FOPT"] "monthly" = .ok dframe ∧
       ∀ row ∈ rowsC1,
         row.p10 = pandasQuantile (valuesAtDate dframe row.date "FOPT") (90/100) ∧
         row.p90 = pandasQuantile (valuesAtDate dframe row.date "FOPT") (10/100)) ∧
    pandasQuantile (valuesAtDate frameC1 1 "FOPT") (90/100) = 19 ∧
    pandasQuantile (valuesAtDate frameC1 1 "FOPT") (10/100) = 11 := by
  refine ⟨?_, ?_, ?_, ?_, ?_, ?_, ?_⟩
  · exact agg_quantile_convention.1 storeC1 "p90" [] []
      [("vols", aggKey "p90" dfC1)] "vols" (aggKey "p90" dfC1) rfl
      (List.mem_singleton.mpr rfl)
  · have h := agg_quantile_convention.2.2.1 "p90" 90 dfC1 (dropCol dfC1 "REAL")
      [] rfl rfl rfl rfl
    rw [h]
    have hdrop : dropCol dfC1 "REAL"
        = { cols := ["VALUE"], rows := [[10], [20], [30], [40], [50]] } := rfl
    rw [hdrop]
    have hcv : colVals { cols := ["VALUE"], rows := [[10], [20], [30], [40], [50]] }
        "VALUE" = [10, 20, 30, 40, 50] := rfl
    simp only [List.map, hcv]
    norm_num [pandasQuantile, Int.toNat]
  · have h := agg_quantile_convention.2.2.1 "p10" 10 dfC1 (dropCol dfC1 "REAL")
      [] rfl rfl rfl rfl
    rw [h]
    have hdrop : dropCol dfC1 "REAL"
        = { cols := ["VALUE"], rows := [[10], [20], [30], [40], [50]] } := rfl
    rw [hdrop]
    have hcv : colVals { cols := ["VALUE"], rows := [[10], [20], [30], [40], [50]] }
        "VALUE" = [10, 20, 30, 40, 50] := rfl
    simp only [List.map, hcv]
    norm_num [pandasQuantile, Int.toNat]
  · refine agg_quantile_convention.2.1 "p90" 90 dfC1g (dropCol dfC1g "REAL")
      ["DATE"] ["VALUE"] rfl rfl rfl rfl (by decide) [1] ?_
    rw [show groupKeys (dropCol dfC1g "REAL") ["DATE"] = [[1]] from rfl]
    exact List.mem_singleton.mpr rfl
  · exact agg_quantile_convention.2.2.2 smryC1 ["FOPT"] "monthly"
      [("FOPT", rowsC1)] "FOPT" rowsC1 rfl (List.mem_singleton.mpr rfl)
  · have hv : valuesAtDate frameC1 1 "FOPT" = [10, 20] := rfl
    rw [hv]
    norm_num [pandasQuantile, Int.toNat]
  · have hv : valuesAtDate frameC1 1 "FOPT" = [10, 20] := rfl
    rw [hv]
    norm_num [pandasQuantile, Int.toNat]
